import Mathlib

/-!
Verification of the reach-avoid replay/training data model of
`VLTSafe_rl_safe_transformer`: the FIFO replay buffers
(`ReplayBuffer`, `ReplayBufferMultimodal` in `models/RARL/utils.py`),
the top-K checkpoint tracker (`TopKLogger`, same file), and the
cost/termination shaping policies (`BaseMujocoEnv.get_cost` /
`get_done` in `envs/base_env.py`).

Modelling conventions:
* Real-valued (numpy float) quantities are modelled by `ℚ`; the claims
  under study are about which formula is applied / which branch is
  taken, not about floating-point rounding.
* numpy arrays indexed by slot are modelled as total functions
  `Nat → α` updated pointwise (`upd`).
* `np.random.randint(0, size, batch_size)` is modelled by an arbitrary
  oracle `g : Nat → Nat` reduced modulo `size`; the call raises
  `ValueError` when `size = 0` (low >= high), which the model returns
  as `Except.error`.
* Python exceptions are `Except.error` with a message recalling the
  Python exception.
-/

/-- Pointwise update of a `Nat`-indexed store: models the numpy
assignment `buf[i] = v`. -/
def upd {β : Type} (f : Nat → β) (i : Nat) (v : β) : Nat → β :=
  fun j => if j = i then v else f j

/-- `matchesFront needle hay`: `needle` is an initial segment of `hay`
(on character lists). Helper for the Python substring test. -/
def matchesFront : List Char → List Char → Bool
  | [], _ => true
  | _ :: _, [] => false
  | c :: cs, d :: ds => (c = d) && matchesFront cs ds

/-- `occursIn needle hay`: `needle` occurs contiguously in `hay`.
Helper for the Python substring test. -/
def occursIn : List Char → List Char → Bool
  | needle, [] => needle.isEmpty
  | needle, d :: ds => matchesFront needle (d :: ds) || occursIn needle ds

/-- Python's `pat in s` on strings (substring containment), as used in
`'reward' in self.return_type` in `BaseMujocoEnv.get_cost`. -/
def strContains (s pat : String) : Bool :=
  occursIn pat.toList s.toList

/-- One transition, bundling the seven parallel fields that
`ReplayBuffer.store(obs, act, rew, next_obs, done, lx, gx)` receives
as separate arguments. `O` is the observation type, `A` the action
type; reward, done flag (stored in a float buffer by the source) and
the two margins are numeric. -/
structure Transition (O A : Type) where
  obs : O
  act : A
  rew : ℚ
  obs2 : O
  done : ℚ
  lx : ℚ
  gx : ℚ
deriving DecidableEq

/-- State of `ReplayBuffer` (`models/RARL/utils.py`): seven parallel
slot arrays plus the write pointer, current size, capacity and
`ptr_start` (always 0 at construction). -/
structure ReplayBuffer (O A : Type) where
  obs_buf : Nat → O
  obs2_buf : Nat → O
  act_buf : Nat → A
  rew_buf : Nat → ℚ
  done_buf : Nat → ℚ
  lx_buf : Nat → ℚ
  gx_buf : Nat → ℚ
  ptr : Nat
  size : Nat
  max_size : Nat
  ptr_start : Nat

namespace ReplayBuffer

/-- `ReplayBuffer.__init__`: zero-filled buffers (`o0`/`a0` stand for
the zero element of the observation/action carrier), `ptr = 0`,
`size = 0`, `max_size = size` argument, `ptr_start = 0`. -/
def init {O A : Type} (o0 : O) (a0 : A) (size : Nat) : ReplayBuffer O A where
  obs_buf := fun _ => o0
  obs2_buf := fun _ => o0
  act_buf := fun _ => a0
  rew_buf := fun _ => 0
  done_buf := fun _ => 0
  lx_buf := fun _ => 0
  gx_buf := fun _ => 0
  ptr := 0
  size := 0
  max_size := size
  ptr_start := 0

/-- `ReplayBuffer.store`: writes every field at slot `ptr`, then
advances `ptr := ptr_start + (ptr + 1 - ptr_start) % (max_size -
ptr_start)` and `size := min (size + 1) max_size`, exactly as in the
source.  (In every buffer the source constructs, `ptr_start = 0` and
`ptr ≥ ptr_start`, so Nat truncated subtraction agrees with Python's
integer subtraction here.) -/
def store {O A : Type} (b : ReplayBuffer O A) (t : Transition O A) :
    ReplayBuffer O A where
  obs_buf := upd b.obs_buf b.ptr t.obs
  obs2_buf := upd b.obs2_buf b.ptr t.obs2
  act_buf := upd b.act_buf b.ptr t.act
  rew_buf := upd b.rew_buf b.ptr t.rew
  done_buf := upd b.done_buf b.ptr t.done
  lx_buf := upd b.lx_buf b.ptr t.lx
  gx_buf := upd b.gx_buf b.ptr t.gx
  ptr := b.ptr_start + (b.ptr + 1 - b.ptr_start) % (b.max_size - b.ptr_start)
  size := min (b.size + 1) b.max_size
  max_size := b.max_size
  ptr_start := b.ptr_start

/-- The transition held at slot `j`: the seven parallel arrays read at
the same index. -/
def read {O A : Type} (b : ReplayBuffer O A) (j : Nat) : Transition O A :=
  ⟨b.obs_buf j, b.act_buf j, b.rew_buf j, b.obs2_buf j, b.done_buf j,
   b.lx_buf j, b.gx_buf j⟩

/-- Iterated `store` over a list of transitions (a sequence of calls to
`ReplayBuffer.store`). -/
def storeAll {O A : Type} (b : ReplayBuffer O A) :
    List (Transition O A) → ReplayBuffer O A
  | [] => b
  | t :: ts => (b.store t).storeAll ts

end ReplayBuffer

/-- The batch returned by `ReplayBuffer.sample_batch`: a dict of seven
parallel arrays, all indexed by the same sampled `idxs`. -/
structure Batch (O A : Type) where
  obs : List O
  obs2 : List O
  act : List A
  rew : List ℚ
  done : List ℚ
  lx : List ℚ
  gx : List ℚ

namespace ReplayBuffer

/-- `ReplayBuffer.sample_batch`: `idxs = np.random.randint(0,
self.size, size=batch_size)` followed by fancy-indexing every buffer
with the same `idxs`.  The random generator is an oracle `g`; index
`i` of the batch uses `g i % size`, which ranges over exactly the
interval `[0, size)` that `randint` draws from.  When `size = 0`,
`np.random.randint(0, 0, ...)` raises `ValueError: low >= high`. -/
def sample_batch {O A : Type} (b : ReplayBuffer O A) (batch_size : Nat)
    (g : Nat → Nat) : Except String (Batch O A) :=
  if b.size = 0 then
    .error "ValueError: low >= high"
  else
    let idxs := (List.range batch_size).map (fun i => g i % b.size)
    .ok { obs := idxs.map b.obs_buf
          obs2 := idxs.map b.obs2_buf
          act := idxs.map b.act_buf
          rew := idxs.map b.rew_buf
          done := idxs.map b.done_buf
          lx := idxs.map b.lx_buf
          gx := idxs.map b.gx_buf }

/-- `sample_batch` together with the buffer state after the call: the
method body of the source assigns no field of `self`, so the state
returned is the receiver itself. -/
def sample_batchSt {O A : Type} (b : ReplayBuffer O A) (batch_size : Nat)
    (g : Nat → Nat) : Except String (Batch O A) × ReplayBuffer O A :=
  (b.sample_batch batch_size g, b)

end ReplayBuffer

/-- Ordering used by Python's `heapq` on the `(success, ckpt)` pairs of
`TopKLogger.checkpoint_queue`: lexicographic, float first, then
string. -/
def entryLe (x y : ℚ × String) : Bool :=
  decide (x.1 < y.1) || (decide (x.1 = y.1) && (decide (x.2 < y.2) || decide (x.2 = y.2)))

/-- `heapq.heappush`, modelled on the sorted-sequence view of the heap:
the heap's observable content is its multiset of entries with the root
`queue[0]` the minimum; we keep the queue sorted by `entryLe`, so the
head is the minimum, as `queue[0]` is for the array heap.  All claims
under study depend only on the retained multiset, its minimum and its
maximum, on which the array-embedded binary heap and this model
agree. -/
def heappush : List (ℚ × String) → ℚ × String → List (ℚ × String)
  | [], x => [x]
  | y :: ys, x => if entryLe x y then x :: y :: ys else y :: heappush ys x

/-- `heapq.heappop` with the popped value discarded (as in
`TopKLogger.push`): removes the minimum, i.e. the head of the sorted
queue. -/
def heappop (q : List (ℚ × String)) : List (ℚ × String) :=
  q.tail

/-- State of `TopKLogger` (`models/RARL/utils.py`). -/
structure TopKLogger where
  max_to_keep : Nat
  checkpoint_queue : List (ℚ × String)
deriving DecidableEq

namespace TopKLogger

/-- `TopKLogger.__init__(k)`. -/
def init (k : Nat) : TopKLogger :=
  ⟨k, []⟩

/-- `TopKLogger.push(ckpt, success)`: if fewer than `max_to_keep`
entries are retained, push and return `True`; otherwise compare
`success` with the minimum retained score `checkpoint_queue[0]` and,
when strictly greater, pop the minimum, push, and return `True`, else
return `False` without mutation.  (Indexing `checkpoint_queue[0]` on
an empty queue — reachable only with `max_to_keep = 0` — raises
`IndexError`.) -/
def push (t : TopKLogger) (ckpt : String) (success : ℚ) :
    Except String (TopKLogger × Bool) :=
  if t.checkpoint_queue.length < t.max_to_keep then
    .ok (⟨t.max_to_keep, heappush t.checkpoint_queue (success, ckpt)⟩, true)
  else
    match t.checkpoint_queue with
    | [] => .error "IndexError: list index out of range"
    | (curr_min_success, _) :: _ =>
      if curr_min_success < success then
        .ok (⟨t.max_to_keep,
              heappush (heappop t.checkpoint_queue) (success, ckpt)⟩, true)
      else
        .ok (t, false)

/-- `TopKLogger.best_ckpt`: `heapq.nlargest(1, queue)[0]` is the
maximum entry of the queue — the last element of the sorted model —
and the `[0]` indexing raises `IndexError` on an empty queue. -/
def best_ckpt (t : TopKLogger) : Except String String :=
  match t.checkpoint_queue.getLast? with
  | none => .error "IndexError: list index out of range"
  | some (_, ckpt) => .ok ckpt

/-- `best_ckpt` together with the tracker state after the call: the
method assigns no field of `self`, so the state is unchanged. -/
def best_ckptSt (t : TopKLogger) : Except String String × TopKLogger :=
  (t.best_ckpt, t)

end TopKLogger

/-- One statement of the `shape_reward` block of
`BaseMujocoEnv.get_cost`, run elementwise on one batch entry.  The
four numpy assignments execute in source order:
`cost[success] = bonusS`, `cost[fail] = bonusF`,
`l_x[success] = bonusS`, `g_x[fail] = bonusF`
(with `bonusS`/`bonusF` the signed reward/penalty for the current
mode).  When `costType = 'dense_ell'` the source set `cost = l_x`, so
`cost` and `l_x` are the *same* numpy array (`aliased = true`): every
in-place assignment to one is seen through the other.  The state is
the triple `(cost, l_x, g_x)` of this entry's values. -/
def shapeEntry (aliased : Bool) (bonusS bonusF : ℚ)
    (c l g : ℚ) (success fail : Bool) : ℚ × ℚ × ℚ :=
  -- cost[success] = bonusS
  let c1 := if success then bonusS else c
  let l1 := if success && aliased then bonusS else l
  -- cost[fail] = bonusF
  let c2 := if fail then bonusF else c1
  let l2 := if fail && aliased then bonusF else l1
  -- l_x[success] = bonusS
  let l3 := if success then bonusS else l2
  let c3 := if success && aliased then bonusS else c2
  -- g_x[fail] = bonusF
  let g1 := if fail then bonusF else g
  (c3, l3, g1)

/-- Elementwise model of `BaseMujocoEnv.get_cost(l_x, g_x, success,
fail)` at one batch entry, with the environment configuration passed
explicitly: `costType`, `return_type` (reward mode is the Python
substring test `'reward' in return_type`), `shape_reward`
(`env_cfg.get('shape_reward', False)`), and the configured `reward`
and `penalty` magnitudes.  Returns the triple
`(cost, l_x, g_x)` the source returns for this entry.

Branches as in the source:
* `'dense_ell'` → `cost = l_x` (aliasing the two arrays);
* `'dense'` → `cost = l_x + g_x` (fresh array);
* `'sparse'` → `cost = 0.`, a Python float scalar — if `shape_reward`
  is set, the subsequent `cost[success] = ...` raises `TypeError`
  (float does not support item assignment);
* `'max_ell_g'` → `np.minimum(l_x, g_x)` in reward mode else
  `np.maximum` (fresh array);
* anything else → `ValueError("invalid cost type!")`. -/
def getCostEntry (costType returnType : String) (shapeReward : Bool)
    (reward penalty : ℚ) (l g : ℚ) (success fail : Bool) :
    Except String (ℚ × ℚ × ℚ) :=
  let rm := strContains returnType "reward"
  let bonusS := if rm then -reward else reward
  let bonusF := if rm then -penalty else penalty
  if costType = "dense_ell" then
    .ok (if shapeReward then shapeEntry true bonusS bonusF l l g success fail
         else (l, l, g))
  else if costType = "dense" then
    .ok (if shapeReward then shapeEntry false bonusS bonusF (l + g) l g success fail
         else (l + g, l, g))
  else if costType = "sparse" then
    if shapeReward then
      .error "TypeError: 'float' object does not support item assignment"
    else
      .ok (0, l, g)
  else if costType = "max_ell_g" then
    let c0 := if rm then min l g else max l g
    .ok (if shapeReward then shapeEntry false bonusS bonusF c0 l g success fail
         else (c0, l, g))
  else
    .error "invalid cost type!"

/-- Model of `BaseMujocoEnv.get_done(state, success, fail)` for one
call.  Following the spec's scalar (per-episode) reading, `success`
and `fail` are booleans; `withinEnv` is the value of
`self.check_within_env(state)` on the passed state (the source calls
it up to twice on the same state within one invocation), `realFail`
the value of `self.check_real_failure()`, and `failure_mode` the
current value of the `self.failure_mode` field.  Returns the `done`
flag together with the new value of `failure_mode`. -/
def get_done (doneType : String) (withinEnv realFail : Bool)
    (failure_mode : Option String) (success fail : Bool) :
    Except String (Bool × Option String) :=
  if doneType = "toEnd" then
    .ok (withinEnv, failure_mode)
  else if doneType = "fail" then
    .ok (fail, failure_mode)
  else if doneType = "TF" then
    .ok (fail || success, failure_mode)
  else if doneType = "all" then
    let done := fail || success || withinEnv
    let fm := if failure_mode.isNone && withinEnv then some "out_of_env"
              else if success then some "success"
              else failure_mode
    .ok (done, fm)
  else if doneType = "real" then
    let done := realFail || success || withinEnv
    let fm := if failure_mode.isNone && withinEnv then some "out_of_env"
              else if success then some "success"
              else failure_mode
    .ok (done, fm)
  else
    .error "invalid done type!"

/-- The per-call inputs of one `get_done` invocation within an
episode: results of the environment capabilities on the current state
and the success/fail flags. -/
structure DoneCall where
  withinEnv : Bool
  realFail : Bool
  success : Bool
  fail : Bool

/-- A sequence of `get_done` calls within one episode, threading the
`failure_mode` field through and returning its final value. -/
def runDone (doneType : String) (failure_mode : Option String) :
    List DoneCall → Except String (Option String)
  | [] => .ok failure_mode
  | c :: cs =>
    match get_done doneType c.withinEnv c.realFail failure_mode c.success c.fail with
    | .error e => .error e
    | .ok (_, fm) => runDone doneType fm cs

/-- The values the `failure_mode` field ranges over. -/
def fmAllowed (fm : Option String) : Prop :=
  fm = none ∨ fm = some "out_of_env" ∨ fm = some "success"

/-- State of `ReplayBufferMultimodal` (`models/RARL/utils.py`):
observation and next-observation stores are indexed by stream name
(the keys of `env_observation_shapes` fixed at construction) and by
slot; the remaining fields are as in `ReplayBuffer`.  The per-stream
dtype choice (`uint8` for streams whose name contains `'rgb'`, float
otherwise) only selects the numeric container and is not modelled:
`V` is the carrier of one stream element. -/
structure ReplayBufferMultimodal (V A : Type) where
  env_observation_keys : List String
  obs_buf : String → Nat → V
  obs2_buf : String → Nat → V
  act_buf : Nat → A
  rew_buf : Nat → ℚ
  done_buf : Nat → ℚ
  lx_buf : Nat → ℚ
  gx_buf : Nat → ℚ
  ptr : Nat
  size : Nat
  max_size : Nat
  ptr_start : Nat

/-- Pointwise update of a stream store at stream `k`, slot `i`:
models `buf[k][i] = v`. -/
def upd2 {V : Type} (f : String → Nat → V) (k : String) (i : Nat) (v : V) :
    String → Nat → V :=
  fun k' j => if k' = k ∧ j = i then v else f k' j

/-- The loop `for obs_type in obs.keys(): obs_buf[obs_type][ptr] =
obs[obs_type]; obs2_buf[obs_type][ptr] = next_obs[obs_type]` of
`ReplayBufferMultimodal.store`.  `obs` is the passed observation dict
(an association list); looking a key up in `next_obs` raises
`KeyError` when absent.  (On that error path the source has already
mutated `obs_buf` for the keys visited so far; the model's error case
carries no state, and no claim under study observes state after a
failed `store`.) -/
def storeObsLoop {V : Type} (next_obs : List (String × V)) (p : Nat) :
    (String → Nat → V) → (String → Nat → V) → List (String × V) →
    Except String ((String → Nat → V) × (String → Nat → V))
  | ob, ob2, [] => .ok (ob, ob2)
  | ob, ob2, (k, v) :: rest =>
    match next_obs.lookup k with
    | none => .error "KeyError"
    | some v2 => storeObsLoop next_obs p (upd2 ob k p v) (upd2 ob2 k p v2) rest

namespace ReplayBufferMultimodal

/-- `ReplayBufferMultimodal.store(obs, act, rew, next_obs, done, lx,
gx)`: writes `obs`/`next_obs` values for exactly the streams present
as keys of `obs`, then unconditionally writes `act`, `rew`, `done`,
`lx`, `gx` at slot `ptr`, then advances `ptr` and `size` exactly as
`ReplayBuffer.store` does. -/
def store {V A : Type} (b : ReplayBufferMultimodal V A)
    (obs : List (String × V)) (act : A) (rew : ℚ)
    (next_obs : List (String × V)) (done lx gx : ℚ) :
    Except String (ReplayBufferMultimodal V A) :=
  match storeObsLoop next_obs b.ptr b.obs_buf b.obs2_buf obs with
  | .error e => .error e
  | .ok (ob, ob2) =>
    .ok { b with
          obs_buf := ob
          obs2_buf := ob2
          act_buf := upd b.act_buf b.ptr act
          rew_buf := upd b.rew_buf b.ptr rew
          done_buf := upd b.done_buf b.ptr done
          lx_buf := upd b.lx_buf b.ptr lx
          gx_buf := upd b.gx_buf b.ptr gx
          ptr := b.ptr_start + (b.ptr + 1 - b.ptr_start) % (b.max_size - b.ptr_start)
          size := min (b.size + 1) b.max_size }

end ReplayBufferMultimodal

/-- The batch returned by `ReplayBufferMultimodal.sample_batch`:
per-stream tensors of shape `(batch, 1, *obs_shape)` — the
`.unsqueeze(1)` inserts the length-1 time-window axis, modelled as a
singleton list around each sampled element — plus the flat fields.
`act` also receives `.unsqueeze(1)`. -/
structure BatchMM (V A : Type) where
  obs : List (String × List (List V))
  obs2 : List (String × List (List V))
  act : List (List A)
  rew : List ℚ
  done : List ℚ
  lx : List ℚ
  gx : List ℚ

namespace ReplayBufferMultimodal

/-- `ReplayBufferMultimodal.sample_batch`: draws `idxs` as
`ReplayBuffer.sample_batch` does (`ValueError` when `size = 0`), then
for every configured stream gathers the rows at `idxs` and inserts the
length-1 window axis with `.unsqueeze(1)`. -/
def sample_batch {V A : Type} (b : ReplayBufferMultimodal V A)
    (batch_size : Nat) (g : Nat → Nat) : Except String (BatchMM V A) :=
  if b.size = 0 then
    .error "ValueError: low >= high"
  else
    let idxs := (List.range batch_size).map (fun i => g i % b.size)
    .ok { obs := b.env_observation_keys.map
            (fun k => (k, idxs.map (fun j => [b.obs_buf k j])))
          obs2 := b.env_observation_keys.map
            (fun k => (k, idxs.map (fun j => [b.obs2_buf k j])))
          act := idxs.map (fun j => [b.act_buf j])
          rew := idxs.map b.rew_buf
          done := idxs.map b.done_buf
          lx := idxs.map b.lx_buf
          gx := idxs.map b.gx_buf }

end ReplayBufferMultimodal

namespace ReplayBuffer

/-- `store` acts on the slot contents as a point update at `ptr`. -/
theorem store_read {O A : Type} (b : ReplayBuffer O A) (t : Transition O A)
    (j : Nat) : (b.store t).read j = if j = b.ptr then t else b.read j := by
  by_cases h : j = b.ptr <;> simp [store, read, upd, h]

theorem store_max_size {O A : Type} (b : ReplayBuffer O A) (t : Transition O A) :
    (b.store t).max_size = b.max_size := rfl

theorem store_ptr_start {O A : Type} (b : ReplayBuffer O A) (t : Transition O A) :
    (b.store t).ptr_start = b.ptr_start := rfl

/-- With `ptr_start = 0` the pointer advance is plain wraparound. -/
theorem store_ptr {O A : Type} (b : ReplayBuffer O A) (t : Transition O A)
    (h0 : b.ptr_start = 0) : (b.store t).ptr = (b.ptr + 1) % b.max_size := by
  simp [store, h0]

theorem storeAll_max_size {O A : Type} (ts : List (Transition O A))
    (b : ReplayBuffer O A) : (b.storeAll ts).max_size = b.max_size := by
  induction ts generalizing b with
  | nil => rfl
  | cons t rest ih => rw [storeAll, ih]; rfl

/-- Size after a run of stores: grows by one per store, capped at
capacity. -/
theorem storeAll_size {O A : Type} (ts : List (Transition O A))
    (b : ReplayBuffer O A) (h : b.size ≤ b.max_size) :
    (b.storeAll ts).size = min (b.size + ts.length) b.max_size := by
  induction ts generalizing b with
  | nil => simp [storeAll]; omega
  | cons t rest ih =>
    rw [storeAll, ih (b.store t)
      (by show min (b.size + 1) b.max_size ≤ b.max_size; omega)]
    show min (min (b.size + 1) b.max_size + rest.length) b.max_size = _
    simp [List.length_cons]; omega

/-- Slots never written during a run of stores keep their contents. -/
theorem storeAll_read_outside {O A : Type} (ts : List (Transition O A))
    (b : ReplayBuffer O A) (j : Nat) (h0 : b.ptr_start = 0)
    (hp : b.ptr < b.max_size)
    (hj : ∀ m, m < ts.length → (b.ptr + m) % b.max_size ≠ j) :
    (b.storeAll ts).read j = b.read j := by
  induction ts generalizing b with
  | nil => rfl
  | cons t rest ih =>
    have hmax0 : 0 < b.max_size := Nat.lt_of_le_of_lt (Nat.zero_le _) hp
    rw [storeAll]
    rw [ih (b.store t) (by rw [store_ptr_start, h0])
      (by rw [store_ptr b t h0, store_max_size]; exact Nat.mod_lt _ hmax0)
      ?_]
    · rw [store_read, if_neg]
      intro hcontra
      exact hj 0 (by simp) (by simpa [Nat.mod_eq_of_lt hp] using hcontra.symm)
    · intro m hm
      rw [store_ptr b t h0, store_max_size, Nat.mod_add_mod]
      have := hj (m + 1) (by simpa using Nat.succ_lt_succ hm)
      simpa [Nat.add_assoc, Nat.add_comm 1 m] using this

/-- The core FIFO law: if no later store in the run hits the same
slot, the slot holds the value written by the `m`-th store. -/
theorem storeAll_read_window {O A : Type} (ts : List (Transition O A))
    (b : ReplayBuffer O A) (h0 : b.ptr_start = 0) (hp : b.ptr < b.max_size) :
    ∀ m (hm : m < ts.length),
      (∀ m', m < m' → m' < ts.length →
        (b.ptr + m') % b.max_size ≠ (b.ptr + m) % b.max_size) →
      (b.storeAll ts).read ((b.ptr + m) % b.max_size) = ts.get ⟨m, hm⟩ := by
  induction ts generalizing b with
  | nil => intro m hm; exact absurd hm (by simp)
  | cons t rest ih =>
    have hmax0 : 0 < b.max_size := Nat.lt_of_le_of_lt (Nat.zero_le _) hp
    have h0' : (b.store t).ptr_start = 0 := by rw [store_ptr_start, h0]
    have hp' : (b.store t).ptr < (b.store t).max_size := by
      rw [store_ptr b t h0, store_max_size]; exact Nat.mod_lt _ hmax0
    intro m hm hconf
    match m with
    | 0 =>
      have hb : (b.ptr + 0) % b.max_size = b.ptr := by
        rw [Nat.add_zero, Nat.mod_eq_of_lt hp]
      rw [storeAll, hb]
      rw [storeAll_read_outside rest (b.store t) b.ptr h0' hp' ?_]
      · rw [store_read, if_pos rfl]; rfl
      · intro m' hm'
        rw [store_ptr b t h0, store_max_size, Nat.mod_add_mod]
        have := hconf (m' + 1) (Nat.succ_pos m')
          (by simpa using Nat.succ_lt_succ hm')
        rw [hb] at this
        simpa [Nat.add_assoc, Nat.add_comm 1 m'] using this
    | Nat.succ m' =>
      rw [storeAll]
      have hm'' : m' < rest.length := by simpa using Nat.lt_of_succ_lt_succ hm
      have key := ih (b.store t) h0' hp' m' hm'' ?_
      · have harg : ((b.store t).ptr + m') % (b.store t).max_size
            = (b.ptr + (m' + 1)) % b.max_size := by
          rw [store_ptr b t h0, store_max_size, Nat.mod_add_mod]
          ring_nf
        rw [harg] at key
        exact key
      · intro n hn hn'
        rw [store_ptr b t h0, store_max_size, Nat.mod_add_mod, Nat.mod_add_mod]
        have := hconf (n + 1) (Nat.succ_lt_succ hn)
          (by simpa using Nat.succ_lt_succ hn')
        have e1 : b.ptr + 1 + n = b.ptr + (n + 1) := by omega
        have e2 : b.ptr + 1 + m' = b.ptr + (m' + 1) := by omega
        rw [e1, e2]
        exact this

end ReplayBuffer

/-- The FIFO contents law of a buffer of capacity `C` after the run
`xs` of stores: size is `C`, each of the last `C` stored transitions
sits in its slot `m % C`, and those slots exhaust all `C` slots (so
the buffer retains exactly the last `C` transitions; everything older
was evicted). -/
def FifoHoldsLast {O A : Type} (C : Nat) (b : ReplayBuffer O A)
    (xs : List (Transition O A)) : Prop :=
  b.size = C ∧
  (∀ m (_ : xs.length - C ≤ m) (hm : m < xs.length),
    b.read (m % C) = xs.get ⟨m, hm⟩) ∧
  (∀ j, j < C → ∃ m, xs.length - C ≤ m ∧ m < xs.length ∧ m % C = j)

/-- C1. For every buffer created with capacity `C ≥ 1` and every
sequence of `C + k` stores (`k ≥ 0`), after the last store the
buffer's size equals `C` and the `C` slots hold exactly the last `C`
stored transitions — the `m`-th store of the run ends up in slot
`m % C` for every `m` in the final window, and those slots cover all
of `[0, C)` — with the oldest transitions evicted first (FIFO
eviction). -/
theorem replayBuffer_fifo_eviction {O A : Type} (o0 : O) (a0 : A) (C k : Nat)
    (hC : 1 ≤ C) (xs : List (Transition O A)) (hlen : xs.length = C + k) :
    FifoHoldsLast C ((ReplayBuffer.init o0 a0 C).storeAll xs) xs := by
  have hinit0 : (ReplayBuffer.init o0 a0 C).ptr_start = 0 := rfl
  have hinitp : (ReplayBuffer.init o0 a0 C).ptr < (ReplayBuffer.init o0 a0 C).max_size := by
    show 0 < C; omega
  refine ⟨?_, ?_, ?_⟩
  · rw [ReplayBuffer.storeAll_size xs _ (by show (0 : Nat) ≤ C; omega)]
    show min (0 + xs.length) C = C
    omega
  · intro m h1 hm
    have hped : (ReplayBuffer.init o0 a0 C).ptr = 0 := rfl
    have hmaxd : (ReplayBuffer.init o0 a0 C).max_size = C := rfl
    have key := ReplayBuffer.storeAll_read_window xs (ReplayBuffer.init o0 a0 C)
      hinit0 hinitp m hm ?_
    · rw [hped, hmaxd, Nat.zero_add] at key
      exact key
    · intro m' hlt hm' heq
      rw [hped, hmaxd, Nat.zero_add, Nat.zero_add] at heq
      show False
      have hmle : m ≤ m' := Nat.le_of_lt hlt
      have hdvd : C ∣ m' - m := (Nat.modEq_iff_dvd' hmle).mp heq.symm
      have hpos : 0 < m' - m := by omega
      have hlarge : C ≤ m' - m := Nat.le_of_dvd hpos hdvd
      omega
  · intro j hj
    have hlenC : xs.length = (xs.length - C) + C := by omega
    set q := xs.length - C with hq
    have hr : q % C < C := Nat.mod_lt _ (by omega)
    by_cases hcase : q % C ≤ j
    · refine ⟨q + (j - q % C), by omega, by omega, ?_⟩
      have step : (q % C + (j - q % C)) % C = (q + (j - q % C)) % C :=
        Nat.mod_add_mod q C (j - q % C)
      rw [← step]
      have : q % C + (j - q % C) = j := by omega
      rw [this]
      exact Nat.mod_eq_of_lt hj
    · refine ⟨q + (C - q % C + j), by omega, by omega, ?_⟩
      have step : (q % C + (C - q % C + j)) % C = (q + (C - q % C + j)) % C :=
        Nat.mod_add_mod q C (C - q % C + j)
      rw [← step]
      have : q % C + (C - q % C + j) = C + j := by omega
      rw [this, Nat.add_mod_left]
      exact Nat.mod_eq_of_lt hj

/-- Witness for C1: capacity 2, three stores — hypotheses `1 ≤ 2` and
`length = 2 + 1` discharged at the concrete input. -/
theorem replayBuffer_fifo_eviction_witness :
    1 ≤ 2 ∧
    FifoHoldsLast 2
      ((ReplayBuffer.init (0 : ℚ) (0 : ℚ) 2).storeAll
        [⟨1, 1, 1, 1, 1, 1, 1⟩, ⟨2, 2, 2, 2, 2, 2, 2⟩, ⟨3, 3, 3, 3, 3, 3, 3⟩])
      [⟨1, 1, 1, 1, 1, 1, 1⟩, ⟨2, 2, 2, 2, 2, 2, 2⟩, ⟨3, 3, 3, 3, 3, 3, 3⟩] :=
  ⟨by decide,
   replayBuffer_fifo_eviction (0 : ℚ) (0 : ℚ) 2 1 (by decide)
     [⟨1, 1, 1, 1, 1, 1, 1⟩, ⟨2, 2, 2, 2, 2, 2, 2⟩, ⟨3, 3, 3, 3, 3, 3, 3⟩] rfl⟩

/-- C2. For every `cost_kind` in `{dense_ell, dense, sparse,
max_ell_g}`, every `return_type` and all input margins and flags, the
cost computed by `get_cost` before any `shape_reward` override equals
the documented formula: `l_x` for `dense_ell`, `l_x + g_x` for
`dense`, `0` for `sparse`, and elementwise `min(l_x, g_x)` in reward
mode / `max(l_x, g_x)` in cost mode for `max_ell_g` (the returned
margins being the inputs, untouched). -/
theorem getCost_formula_table (returnType : String) (r p l g : ℚ)
    (su f : Bool) :
    getCostEntry "dense_ell" returnType false r p l g su f = .ok (l, l, g) ∧
    getCostEntry "dense" returnType false r p l g su f = .ok (l + g, l, g) ∧
    getCostEntry "sparse" returnType false r p l g su f = .ok (0, l, g) ∧
    getCostEntry "max_ell_g" returnType false r p l g su f =
      .ok ((if strContains returnType "reward" then min l g else max l g), l, g) :=
  ⟨rfl, rfl, rfl, rfl⟩

/-- Counterexample for C3: `cost_kind = "dense"`, reward mode,
`shape_reward` on, reward bonus 1, penalty 2; the entry has
`success = true` but also `fail = true`.  The returned cost is `-2`
(the negated penalty, written by the later `cost[fail] = -penalty`
assignment), not the negated bonus `-1` the claim requires regardless
of the other flags; the returned `l_x` is `-1` as claimed. -/
theorem getCost_shapeReward_cost_not_bonus_when_fail :
    (getCostEntry "dense" "reward" true 1 2 5 7 true true).toOption
      = some (-2, -1, -2) ∧ (-2 : ℚ) ≠ -1 * 1 := by
  constructor
  · decide
  · norm_num

/-- C3 as amended: with `shape_reward` on and an array-valued
`cost_kind` (`dense_ell`, `dense` or `max_ell_g`; for `sparse` the
scalar cost makes the override raise `TypeError`), every entry whose
`success` flag is true gets its returned `target_margin` forced to the
configured bonus (negated reward in reward mode, reward in cost mode)
regardless of the input margins and of `fail`; the returned cost is
forced to that bonus whenever `fail` is false (for `dense_ell` the
cost/`l_x` aliasing forces it even when `fail` is true, but for the
fresh-array kinds a simultaneous `fail` overrides the cost with the
penalty instead). -/
theorem getCost_shapeReward_success_forces_bonus (costType returnType : String)
    (r p l g : ℚ) (f : Bool)
    (hk : costType = "dense_ell" ∨ costType = "dense" ∨ costType = "max_ell_g") :
    ∃ c lx gx,
      getCostEntry costType returnType true r p l g true f = .ok (c, lx, gx) ∧
      lx = (if strContains returnType "reward" then -r else r) ∧
      (f = false → c = (if strContains returnType "reward" then -r else r)) := by
  rcases hk with h | h | h <;> subst h <;>
    cases hrm : strContains returnType "reward" <;> cases f <;>
      refine ⟨_, _, _, rfl, ?_, ?_⟩ <;>
        simp [getCostEntry, shapeEntry, hrm]

/-- Witness for C3's amended theorem: `cost_kind = "dense"`, reward
mode, `fail = false`. -/
theorem getCost_shapeReward_success_forces_bonus_witness :
    ("dense" = "dense_ell" ∨ "dense" = "dense" ∨ "dense" = "max_ell_g") ∧
    (∃ c lx gx,
      getCostEntry "dense" "reward" true 1 2 3 4 true false = .ok (c, lx, gx) ∧
      lx = (if strContains "reward" "reward" then -1 else 1) ∧
      (false = false → c = (if strContains "reward" "reward" then -1 else 1))) :=
  ⟨Or.inr (Or.inl rfl),
   getCost_shapeReward_success_forces_bonus "dense" "reward" 1 2 3 4 false
     (Or.inr (Or.inl rfl))⟩

/-- The update `get_done` applies to the `failure_mode` field under
`done_kind` "all" or "real" (both run the identical
`if self.failure_mode is None and within: 'out_of_env' elif success:
'success'` block). -/
def fmStep (fm : Option String) (c : DoneCall) : Option String :=
  if fm.isNone && c.withinEnv then some "out_of_env"
  else if c.success then some "success"
  else fm

theorem runDone_all_step (fm : Option String) (c : DoneCall)
    (cs : List DoneCall) :
    runDone "all" fm (c :: cs) = runDone "all" (fmStep fm c) cs := rfl

theorem runDone_real_step (fm : Option String) (c : DoneCall)
    (cs : List DoneCall) :
    runDone "real" fm (c :: cs) = runDone "real" (fmStep fm c) cs := rfl

theorem fmStep_allowed (fm : Option String) (c : DoneCall)
    (h : fmAllowed fm) : fmAllowed (fmStep fm c) := by
  unfold fmStep fmAllowed
  split
  · exact Or.inr (Or.inl rfl)
  · split
    · exact Or.inr (Or.inr rfl)
    · exact h

theorem fmStep_success (c : DoneCall) :
    fmStep (some "success") c = some "success" := by
  cases hs : c.success <;> simp [fmStep, hs]

/-- Counterexample for C4: two `get_done` calls with
`done_kind = "all"`.  The first call (state out of bounds, no
success) sets `failure_mode` to `"out_of_env"`; the second call
(success) overwrites it with `"success"` — the `elif success` branch
is not guarded by `failure_mode is None`, so the tag is **not**
first-writer-wins. -/
theorem failureMode_overwritten_counterexample :
    (runDone "all" none [⟨true, false, false, false⟩]).toOption
      = some (some "out_of_env") ∧
    (runDone "all" none
        [⟨true, false, false, false⟩, ⟨false, false, true, false⟩]).toOption
      = some (some "success") ∧
    some "out_of_env" ≠ some "success" := by
  refine ⟨by decide, by decide, by decide⟩

/-- Invariant of a run of `"all"` calls: the tag stays in range, and
`"success"` is absorbing. -/
theorem runDone_all_inv : ∀ (calls : List DoneCall) (fm0 fm' : Option String),
    fmAllowed fm0 → runDone "all" fm0 calls = .ok fm' →
    fmAllowed fm' ∧ (fm0 = some "success" → fm' = some "success")
  | [], fm0, fm', h0, hrun => by
      have h : Except.ok (ε := String) fm0 = Except.ok fm' := hrun
      injection h with h
      subst h
      exact ⟨h0, fun hs => hs⟩
  | c :: cs, fm0, fm', h0, hrun => by
      rw [runDone_all_step] at hrun
      have ih := runDone_all_inv cs (fmStep fm0 c) fm'
        (fmStep_allowed fm0 c h0) hrun
      refine ⟨ih.1, fun hs => ?_⟩
      subst hs
      exact ih.2 (fmStep_success c)

theorem runDone_real_inv : ∀ (calls : List DoneCall) (fm0 fm' : Option String),
    fmAllowed fm0 → runDone "real" fm0 calls = .ok fm' →
    fmAllowed fm' ∧ (fm0 = some "success" → fm' = some "success")
  | [], fm0, fm', h0, hrun => by
      have h : Except.ok (ε := String) fm0 = Except.ok fm' := hrun
      injection h with h
      subst h
      exact ⟨h0, fun hs => hs⟩
  | c :: cs, fm0, fm', h0, hrun => by
      rw [runDone_real_step] at hrun
      have ih := runDone_real_inv cs (fmStep fm0 c) fm'
        (fmStep_allowed fm0 c h0) hrun
      refine ⟨ih.1, fun hs => ?_⟩
      subst hs
      exact ih.2 (fmStep_success c)

/-- C4 as amended: across every sequence of `get_done` calls with
`done_kind` "all" or "real", the `failure_mode` tag always remains in
`{None, "out_of_env", "success"}`, and once it equals `"success"` it
is never changed by a later call; but a tag `"out_of_env"` can still
be overwritten to `"success"` by a later successful call (the
at-most-once / first-writer-wins part of the claim fails, as the
counterexample shows). -/
theorem failureMode_range_and_success_absorbing (doneType : String)
    (calls : List DoneCall) (fm0 fm' : Option String)
    (hk : doneType = "all" ∨ doneType = "real") (h0 : fmAllowed fm0)
    (hrun : runDone doneType fm0 calls = .ok fm') :
    fmAllowed fm' ∧ (fm0 = some "success" → fm' = some "success") := by
  rcases hk with h | h
  · subst h; exact runDone_all_inv calls fm0 fm' h0 hrun
  · subst h; exact runDone_real_inv calls fm0 fm' h0 hrun

/-- Witness for C4's amended theorem: one "all" call on an
out-of-bounds state sets the tag to `"out_of_env"`, which is in range
and (vacuously) respects success-absorption. -/
theorem failureMode_range_witness :
    ("all" = "all" ∨ "all" = "real") ∧ fmAllowed none ∧
    runDone "all" none [⟨true, false, false, false⟩]
      = .ok (some "out_of_env") ∧
    (fmAllowed (some "out_of_env") ∧
      (none = some "success" → some "out_of_env" = some "success")) :=
  ⟨Or.inl rfl, Or.inl rfl, rfl,
   failureMode_range_and_success_absorbing "all"
     [⟨true, false, false, false⟩] none (some "out_of_env")
     (Or.inl rfl) (Or.inl rfl) rfl⟩

/-- C5. Sampling a batch from a buffer of size 0 fails (the
`np.random.randint(0, 0, ...)` call raises `ValueError`, the
realization of the spec's `EmptyBufferError`), and querying the best
checkpoint of an empty tracker fails (`heapq.nlargest(1, [])[0]`
raises `IndexError`, the realization of `EmptyTrackerError`); in both
cases the structure is returned unchanged — neither source method
assigns any field of `self`. -/
theorem empty_sample_and_best_fail (b : ReplayBuffer ℚ ℚ) (n : Nat)
    (g : Nat → Nat) (t : TopKLogger) (hb : b.size = 0)
    (ht : t.checkpoint_queue = []) :
    b.sample_batchSt n g = (.error "ValueError: low >= high", b) ∧
    t.best_ckptSt = (.error "IndexError: list index out of range", t) := by
  constructor
  · show (b.sample_batch n g, b) = _
    unfold ReplayBuffer.sample_batch
    rw [if_pos hb]
  · show (t.best_ckpt, t) = _
    unfold TopKLogger.best_ckpt
    rw [ht]
    rfl

/-- Witness for C5: a freshly constructed buffer of capacity 3 and a
freshly constructed tracker with `k = 2`. -/
theorem empty_sample_and_best_fail_witness :
    (ReplayBuffer.init (0 : ℚ) (0 : ℚ) 3).size = 0 ∧
    (TopKLogger.init 2).checkpoint_queue = [] ∧
    ((ReplayBuffer.init (0 : ℚ) (0 : ℚ) 3).sample_batchSt 4 (fun _ => 0)
        = (.error "ValueError: low >= high", ReplayBuffer.init (0 : ℚ) (0 : ℚ) 3) ∧
      (TopKLogger.init 2).best_ckptSt
        = (.error "IndexError: list index out of range", TopKLogger.init 2)) :=
  ⟨rfl, rfl,
   empty_sample_and_best_fail (ReplayBuffer.init (0 : ℚ) (0 : ℚ) 3) 4
     (fun _ => 0) (TopKLogger.init 2) rfl rfl⟩

/-- The score 0.1, as the reduced rational `1/10` (the raw
constructor form lets the kernel evaluate heap comparisons). -/
def score01 : ℚ := Rat.mk' 1 10 (by decide) (by decide)

/-- The score 0.9 = `9/10`. -/
def score09 : ℚ := Rat.mk' 9 10 (by decide) (by decide)

/-- The score 0.5 = `5/10` in lowest terms. -/
def score05 : ℚ := Rat.mk' 1 2 (by decide) (by decide)

/-- The score 0.95 = `95/100` in lowest terms. -/
def score095 : ℚ := Rat.mk' 19 20 (by decide) (by decide)

/-- C6. On a tracker with `K = 2`, offering scores
`0.1, 0.9, 0.5, 0.95` with distinct identifiers `a, b, c, d` makes
every offer return `True`, successively leaving queues
`[(0.1,a)]`, `[(0.1,a),(0.9,b)]`, `[(0.5,c),(0.9,b)]` (score 0.5
evicts 0.1), and `[(0.9,b),(0.95,d)]` (score 0.95 evicts 0.5): after
all four offers exactly the entries with scores 0.9 and 0.95 are
retained, and `best_ckpt` returns `d`, the identifier offered with
0.95.  The first four conjuncts pin the score constants to the
decimal values of the claim. -/
theorem topKLogger_offer_sequence :
    score01 = 1/10 ∧ score09 = 9/10 ∧ score05 = 5/10 ∧ score095 = 95/100 ∧
    ((TopKLogger.init 2).push "a" score01).toOption
      = some (⟨2, [(score01, "a")]⟩, true) ∧
    ((⟨2, [(score01, "a")]⟩ : TopKLogger).push "b" score09).toOption
      = some (⟨2, [(score01, "a"), (score09, "b")]⟩, true) ∧
    ((⟨2, [(score01, "a"), (score09, "b")]⟩ : TopKLogger).push "c" score05).toOption
      = some (⟨2, [(score05, "c"), (score09, "b")]⟩, true) ∧
    ((⟨2, [(score05, "c"), (score09, "b")]⟩ : TopKLogger).push "d" score095).toOption
      = some (⟨2, [(score09, "b"), (score095, "d")]⟩, true) ∧
    (⟨2, [(score09, "b"), (score095, "d")]⟩ : TopKLogger).best_ckpt.toOption
      = some "d" := by
  refine ⟨?_, ?_, ?_, ?_, by decide, by decide, by decide, by decide, by decide⟩
  · rw [score01, Rat.mk'_eq_divInt, Rat.divInt_eq_div]; norm_num
  · rw [score09, Rat.mk'_eq_divInt, Rat.divInt_eq_div]; norm_num
  · rw [score05, Rat.mk'_eq_divInt, Rat.divInt_eq_div]; norm_num
  · rw [score095, Rat.mk'_eq_divInt, Rat.divInt_eq_div]; norm_num

/-- What `sample` guarantees on a non-empty buffer: a batch of exactly
`n` rows per field, each row drawn — across all seven parallel fields
at the same batch index — from a single stored slot `j < size`. -/
def SampleMembership {O A : Type} (b : ReplayBuffer O A) (n : Nat)
    (g : Nat → Nat) : Prop :=
  ∃ batch : Batch O A,
    b.sample_batch n g = .ok batch ∧
    batch.obs.length = n ∧ batch.obs2.length = n ∧ batch.act.length = n ∧
    batch.rew.length = n ∧ batch.done.length = n ∧ batch.lx.length = n ∧
    batch.gx.length = n ∧
    ∀ i, i < n → ∃ j, j < b.size ∧
      batch.obs[i]? = some (b.obs_buf j) ∧
      batch.obs2[i]? = some (b.obs2_buf j) ∧
      batch.act[i]? = some (b.act_buf j) ∧
      batch.rew[i]? = some (b.rew_buf j) ∧
      batch.done[i]? = some (b.done_buf j) ∧
      batch.lx[i]? = some (b.lx_buf j) ∧
      batch.gx[i]? = some (b.gx_buf j)

/-- C7. For every buffer of size `s ≥ 1` and every requested batch
size `n`, sampling succeeds and returns exactly `n` entries, and the
entry at each batch index — taken across all parallel fields at that
same index — equals the content of one stored slot `j < s`
(membership law). -/
theorem sample_membership_law {O A : Type} (b : ReplayBuffer O A)
    (hs : 1 ≤ b.size) (n : Nat) (g : Nat → Nat) :
    SampleMembership b n g := by
  have hne : ¬ b.size = 0 := by omega
  refine ⟨⟨((List.range n).map (fun i => g i % b.size)).map b.obs_buf,
           ((List.range n).map (fun i => g i % b.size)).map b.obs2_buf,
           ((List.range n).map (fun i => g i % b.size)).map b.act_buf,
           ((List.range n).map (fun i => g i % b.size)).map b.rew_buf,
           ((List.range n).map (fun i => g i % b.size)).map b.done_buf,
           ((List.range n).map (fun i => g i % b.size)).map b.lx_buf,
           ((List.range n).map (fun i => g i % b.size)).map b.gx_buf⟩,
         ?_, ?_, ?_, ?_, ?_, ?_, ?_, ?_, ?_⟩
  · show b.sample_batch n g = _
    unfold ReplayBuffer.sample_batch
    rw [if_neg hne]
  · simp
  · simp
  · simp
  · simp
  · simp
  · simp
  · simp
  · intro i hi
    refine ⟨g i % b.size, Nat.mod_lt _ (by omega), ?_, ?_, ?_, ?_, ?_, ?_, ?_⟩ <;>
      simp [List.getElem?_map, List.getElem?_range, hi]

/-- Witness for C7: a capacity-1 buffer after one store (size 1),
batch size 2, constant random oracle. -/
theorem sample_membership_law_witness :
    1 ≤ ((ReplayBuffer.init (0 : ℚ) (0 : ℚ) 1).store
          ⟨1, 2, 3, 4, 5, 6, 7⟩).size ∧
    SampleMembership
      ((ReplayBuffer.init (0 : ℚ) (0 : ℚ) 1).store ⟨1, 2, 3, 4, 5, 6, 7⟩)
      2 (fun _ => 0) :=
  ⟨by decide,
   sample_membership_law
     ((ReplayBuffer.init (0 : ℚ) (0 : ℚ) 1).store ⟨1, 2, 3, 4, 5, 6, 7⟩)
     (by decide) 2 (fun _ => 0)⟩

/-- What `ReplayBufferMultimodal.sample` guarantees on a non-empty
buffer: for every configured stream, the batch holds that stream in
both the observation and next-observation mappings, with outer batch
dimension `n` and an inserted time-window dimension of size 1 on
every row. -/
def MMSampleShape {V A : Type} (b : ReplayBufferMultimodal V A) (n : Nat)
    (g : Nat → Nat) : Prop :=
  ∃ batch : BatchMM V A,
    b.sample_batch n g = .ok batch ∧
    ∀ k, k ∈ b.env_observation_keys →
      ∃ rows rows2,
        (k, rows) ∈ batch.obs ∧ (k, rows2) ∈ batch.obs2 ∧
        rows.length = n ∧ rows2.length = n ∧
        (∀ r, r ∈ rows → r.length = 1) ∧ (∀ r, r ∈ rows2 → r.length = 1)

/-- C8. For every multimodal buffer of size ≥ 1 and every requested
batch size `n`, `sample_batch` succeeds and returns, for each
configured observation stream in both the observation and
next-observation mappings, an array whose outer batch dimension is
`n` and whose inserted time-window dimension (the `.unsqueeze(1)`
axis) is 1. -/
theorem multimodal_sample_window_dims {V A : Type}
    (b : ReplayBufferMultimodal V A) (hs : 1 ≤ b.size) (n : Nat)
    (g : Nat → Nat) : MMSampleShape b n g := by
  have hne : ¬ b.size = 0 := by omega
  refine ⟨⟨b.env_observation_keys.map
            (fun k => (k, ((List.range n).map (fun i => g i % b.size)).map
              (fun j => [b.obs_buf k j]))),
           b.env_observation_keys.map
            (fun k => (k, ((List.range n).map (fun i => g i % b.size)).map
              (fun j => [b.obs2_buf k j]))),
           ((List.range n).map (fun i => g i % b.size)).map
            (fun j => [b.act_buf j]),
           ((List.range n).map (fun i => g i % b.size)).map b.rew_buf,
           ((List.range n).map (fun i => g i % b.size)).map b.done_buf,
           ((List.range n).map (fun i => g i % b.size)).map b.lx_buf,
           ((List.range n).map (fun i => g i % b.size)).map b.gx_buf⟩,
         ?_, ?_⟩
  · show b.sample_batch n g = _
    unfold ReplayBufferMultimodal.sample_batch
    rw [if_neg hne]
  · intro k hk
    refine ⟨_, _, List.mem_map.mpr ⟨k, hk, rfl⟩, List.mem_map.mpr ⟨k, hk, rfl⟩,
            by simp, by simp, ?_, ?_⟩
    · intro r hr
      rcases List.mem_map.mp hr with ⟨j, _, hj⟩
      rw [← hj]
      rfl
    · intro r hr
      rcases List.mem_map.mp hr with ⟨j, _, hj⟩
      rw [← hj]
      rfl

/-- A concrete two-stream multimodal buffer of size 1 for the C8
witness. -/
def mmSized : ReplayBufferMultimodal ℚ ℚ :=
  ⟨["cam_rgb", "state"], fun _ _ => 0, fun _ _ => 0, fun _ => 0,
   fun _ => 0, fun _ => 0, fun _ => 0, fun _ => 0, 0, 1, 1, 0⟩

/-- Witness for C8: the size-1 two-stream buffer, batch size 2. -/
theorem multimodal_sample_window_dims_witness :
    1 ≤ mmSized.size ∧ MMSampleShape mmSized 2 (fun _ => 0) :=
  ⟨by decide, multimodal_sample_window_dims mmSized (by decide) 2 (fun _ => 0)⟩

/-- C9. For every `cost_kind` outside the four recognized values,
`get_cost` raises `ValueError("invalid cost type!")` (the spec's
`InvalidConfiguration`) without returning a cost — the `if/elif`
chain falls through to `raise` before any shaping — and for every
`done_kind` outside the five recognized values, `get_done` raises
`ValueError("invalid done type!")` without returning a done flag. -/
theorem invalid_kind_errors (costType doneType returnType : String)
    (sr : Bool) (r p l g : ℚ) (su f w rf : Bool) (fm : Option String)
    (hc1 : costType ≠ "dense_ell") (hc2 : costType ≠ "dense")
    (hc3 : costType ≠ "sparse") (hc4 : costType ≠ "max_ell_g")
    (hd1 : doneType ≠ "toEnd") (hd2 : doneType ≠ "fail")
    (hd3 : doneType ≠ "TF") (hd4 : doneType ≠ "all")
    (hd5 : doneType ≠ "real") :
    getCostEntry costType returnType sr r p l g su f
      = .error "invalid cost type!" ∧
    get_done doneType w rf fm su f = .error "invalid done type!" := by
  constructor
  · unfold getCostEntry
    rw [if_neg hc1, if_neg hc2, if_neg hc3, if_neg hc4]
  · unfold get_done
    rw [if_neg hd1, if_neg hd2, if_neg hd3, if_neg hd4, if_neg hd5]

/-- Witness for C9: the unrecognized kinds `"bogus"` and `"nonsense"`. -/
theorem invalid_kind_errors_witness :
    ("bogus" ≠ "dense_ell" ∧ "bogus" ≠ "dense" ∧ "bogus" ≠ "sparse" ∧
      "bogus" ≠ "max_ell_g" ∧ "nonsense" ≠ "toEnd" ∧ "nonsense" ≠ "fail" ∧
      "nonsense" ≠ "TF" ∧ "nonsense" ≠ "all" ∧ "nonsense" ≠ "real") ∧
    (getCostEntry "bogus" "reward" false 1 2 3 4 true false
        = .error "invalid cost type!" ∧
      get_done "nonsense" true false none true false
        = .error "invalid done type!") :=
  ⟨⟨by decide, by decide, by decide, by decide, by decide, by decide,
    by decide, by decide, by decide⟩,
   invalid_kind_errors "bogus" "nonsense" "reward" false 1 2 3 4 true false
     true false none (by decide) (by decide) (by decide) (by decide)
     (by decide) (by decide) (by decide) (by decide) (by decide)⟩

/-- Streams that `storeObsLoop` never writes (keys absent from the
stored observation dict) keep their contents in both stores. -/
theorem storeObsLoop_preserves {V : Type} :
    ∀ (entries next_obs : List (String × V)) (p : Nat)
      (ob ob2 : String → Nat → V)
      (res : (String → Nat → V) × (String → Nat → V)),
      storeObsLoop next_obs p ob ob2 entries = .ok res →
      ∀ s, entries.lookup s = none →
        ∀ i, res.1 s i = ob s i ∧ res.2 s i = ob2 s i
  | [], nxt, p, ob, ob2, res, h, s, hs, i => by
      have h' : Except.ok (ε := String) (ob, ob2) = Except.ok res := h
      injection h' with h'
      rw [← h']
      exact ⟨rfl, rfl⟩
  | (k, v) :: rest, nxt, p, ob, ob2, res, h, s, hs, i => by
      have hstep : storeObsLoop nxt p ob ob2 ((k, v) :: rest)
          = (match nxt.lookup k with
             | none => .error "KeyError"
             | some v2 => storeObsLoop nxt p (upd2 ob k p v) (upd2 ob2 k p v2) rest) := rfl
      rw [hstep] at h
      cases hl : nxt.lookup k with
      | none => rw [hl] at h; cases h
      | some v2 =>
        rw [hl] at h
        have hsplit : (s == k) = false ∧ rest.lookup s = none := by
          by_cases hbe : (s == k) = true
          · exfalso
            have : List.lookup s ((k, v) :: rest) = some v := by
              simp [List.lookup, hbe]
            rw [hs] at this
            cases this
          · refine ⟨by simpa using hbe, ?_⟩
            have : List.lookup s ((k, v) :: rest) = List.lookup s rest := by
              simp [List.lookup, Bool.of_not_eq_true hbe]
            rw [← this, hs]
        have hsk : ¬ s = k := by
          intro hcontra
          rw [hcontra] at hsplit
          simp at hsplit
        have ih := storeObsLoop_preserves rest nxt p (upd2 ob k p v)
          (upd2 ob2 k p v2) res h s hsplit.2 i
        constructor
        · rw [ih.1]
          show (if s = k ∧ i = p then v else ob s i) = ob s i
          rw [if_neg]
          intro hand
          exact hsk hand.1
        · rw [ih.2]
          show (if s = k ∧ i = p then v2 else ob2 s i) = ob2 s i
          rw [if_neg]
          intro hand
          exact hsk hand.1

/-- C10. A successful multimodal `store` writes only the streams
present as keys of the passed observation dict: a stream configured
at construction but absent from the stored observation keeps its
contents (in both the observation and next-observation stores, at
every slot, in particular at the write position), while the action,
reward, done and margin fields at the write position are always
overwritten. -/
theorem multimodal_store_frame_effect {V A : Type}
    (b : ReplayBufferMultimodal V A) (obs : List (String × V)) (act : A)
    (rew : ℚ) (next_obs : List (String × V)) (done lx gx : ℚ)
    (b' : ReplayBufferMultimodal V A)
    (h : b.store obs act rew next_obs done lx gx = .ok b')
    (s : String) (_hs : s ∈ b.env_observation_keys)
    (habs : obs.lookup s = none) :
    (∀ i, b'.obs_buf s i = b.obs_buf s i ∧ b'.obs2_buf s i = b.obs2_buf s i) ∧
    b'.act_buf b.ptr = act ∧ b'.rew_buf b.ptr = rew ∧
    b'.done_buf b.ptr = done ∧ b'.lx_buf b.ptr = lx ∧
    b'.gx_buf b.ptr = gx := by
  unfold ReplayBufferMultimodal.store at h
  cases hl : storeObsLoop next_obs b.ptr b.obs_buf b.obs2_buf obs with
  | error e => rw [hl] at h; cases h
  | ok res =>
    obtain ⟨ob, ob2⟩ := res
    rw [hl] at h
    dsimp only at h
    injection h with h
    subst h
    refine ⟨?_, ?_, ?_, ?_, ?_, ?_⟩
    · intro i
      exact storeObsLoop_preserves obs next_obs b.ptr b.obs_buf b.obs2_buf
        (ob, ob2) hl s habs i
    · show upd b.act_buf b.ptr act b.ptr = act
      simp [upd]
    · show upd b.rew_buf b.ptr rew b.ptr = rew
      simp [upd]
    · show upd b.done_buf b.ptr done b.ptr = done
      simp [upd]
    · show upd b.lx_buf b.ptr lx b.ptr = lx
      simp [upd]
    · show upd b.gx_buf b.ptr gx b.ptr = gx
      simp [upd]

/-- Witness buffer for C10: two configured streams `"a"`, `"b"`,
capacity 1, freshly zeroed. -/
def mmFrameBuf : ReplayBufferMultimodal ℚ ℚ :=
  ⟨["a", "b"], fun _ _ => 0, fun _ _ => 0, fun _ => 0, fun _ => 0,
   fun _ => 0, fun _ => 0, fun _ => 0, 0, 0, 1, 0⟩

/-- The state of `mmFrameBuf` after storing an observation dict that
only carries stream `"a"`. -/
def mmFrameBufOut : ReplayBufferMultimodal ℚ ℚ :=
  ⟨["a", "b"], upd2 (fun _ _ => 0) "a" 0 5, upd2 (fun _ _ => 0) "a" 0 6,
   upd (fun _ => 0) 0 9, upd (fun _ => 0) 0 8, upd (fun _ => 0) 0 7,
   upd (fun _ => 0) 0 6, upd (fun _ => 0) 0 5, 0, 1, 1, 0⟩

/-- Witness for C10: storing `{a: 5}` / `{a: 6}` with action 9,
reward 8, done 7 and margins 6, 5 leaves the unmentioned stream `"b"`
untouched while the flat fields at the write position are
overwritten. -/
theorem multimodal_store_frame_effect_witness :
    mmFrameBuf.store [("a", 5)] 9 8 [("a", 6)] 7 6 5 = .ok mmFrameBufOut ∧
    "b" ∈ mmFrameBuf.env_observation_keys ∧
    ([(("a" : String), (5 : ℚ))].lookup "b") = none ∧
    ((∀ i, mmFrameBufOut.obs_buf "b" i = mmFrameBuf.obs_buf "b" i ∧
        mmFrameBufOut.obs2_buf "b" i = mmFrameBuf.obs2_buf "b" i) ∧
      mmFrameBufOut.act_buf mmFrameBuf.ptr = 9 ∧
      mmFrameBufOut.rew_buf mmFrameBuf.ptr = 8 ∧
      mmFrameBufOut.done_buf mmFrameBuf.ptr = 7 ∧
      mmFrameBufOut.lx_buf mmFrameBuf.ptr = 6 ∧
      mmFrameBufOut.gx_buf mmFrameBuf.ptr = 5) :=
  ⟨rfl, by decide, rfl,
   multimodal_store_frame_effect mmFrameBuf [("a", 5)] 9 8 [("a", 6)] 7 6 5
     mmFrameBufOut rfl "b" (by decide) rfl⟩
